/-
Verification of the rule model / repository (src store `useRulesStore`) and the
dataset validation library (`validation.ts`) of the digitalyz-assignment
repository, as a shallow embedding in Lean 4.

Conventions of the embedding:
* JavaScript `number` values appearing in rules and parsed cell values are
  modelled as `ℚ`; a `NaN` produced by `Number(...)` is modelled as `none` in
  `Option ℚ` (so `x < NaN` being false in JS becomes an explicit `match`).
* A data `Row` (`Record<string, any>`) is modelled as an association list from
  column name to string cell value; an absent column is an absent key.
* Host facilities (`JSON.parse`, `new RegExp`, `Number`) are modelled by
  executable Lean functions below, faithful to the host on the fragments the
  code exercises (decimal numerals, plain JSON, group-balanced regexes).
-/
import Mathlib

namespace Digitalyz

/-- JS whitespace recognized by `String.prototype.trim`. -/
def jsWhite (c : Char) : Bool :=
  c = ' ' || c = '\t' || c = '\n' || c = '\r' || c = '\x0b' || c = '\x0c'

/-- Models the host `s.trim()`: strip leading and trailing whitespace. -/
def jsTrim (s : String) : String :=
  String.mk (((s.data.dropWhile jsWhite).reverse.dropWhile jsWhite).reverse)

/-- The six rule variants of the store's tagged union `Rule`.
`params` of `patternMatch` is an opaque `Record<string, unknown>`; it is never
inspected by any operation, and is modelled as an association list of strings. -/
inductive Rule where
  | coRun (tasks : List String)
  | slotRestriction (group : String) (minCommonSlots : ℚ)
  | loadLimit (group : String) (maxSlotsPerPhase : ℚ)
  | phaseWindow (task : String) (allowedPhases : List ℚ)
  | patternMatch (regex : String) (template : String) (params : List (String × String))
  | precedenceOverride (global : List String) (specific : List String) (priority : ℚ)
deriving DecidableEq, Repr

/-- The `type` discriminant string of a rule. -/
def Rule.tag : Rule → String
  | .coRun _ => "coRun"
  | .slotRestriction _ _ => "slotRestriction"
  | .loadLimit _ _ => "loadLimit"
  | .phaseWindow _ _ => "phaseWindow"
  | .patternMatch _ _ _ => "patternMatch"
  | .precedenceOverride _ _ _ => "precedenceOverride"

/-- Scanner state for `regexOk`: whether we are inside a character class, and
the current depth of open groups. -/
def regexScan : List Char → Bool → Nat → Bool
  | [], inClass, depth => !inClass && depth = 0
  | '\\' :: rest, inClass, depth =>
      match rest with
      | [] => false
      | _ :: rest2 => regexScan rest2 inClass depth
  | c :: rest, true, depth =>
      if c = ']' then regexScan rest false depth else regexScan rest true depth
  | c :: rest, false, depth =>
      if c = '[' then regexScan rest true depth
      else if c = '(' then regexScan rest false (depth + 1)
      else if c = ')' then
        match depth with
        | 0 => false
        | d + 1 => regexScan rest false d
      else regexScan rest false depth

/-- Models the host's `new RegExp(pattern)` compilation check: the pattern is
accepted iff groups `(`/`)` are balanced, every character class `[...]` is
closed, and no backslash dangles at the end.  This agrees with the host on
every pattern the code and the spec exercise (in particular it rejects
`"(unclosed"` and accepts the empty pattern). -/
def regexOk (s : String) : Bool :=
  regexScan s.data false 0

/-- The error list computed by the store's `validateRule` switch.  JS truthiness
notes: an array is always truthy, so `!rule.tasks` etc. never fires and the
length test alone decides; for a string `!s` means `s = ""`; for a number
`!n` means `n = 0` (no `NaN` arises for a `ℚ` field). -/
def ruleErrors : Rule → List String
  | .coRun tasks =>
      (if tasks.length < 2 then ["Co-run rule must have at least 2 tasks"] else []) ++
      (if tasks.any (fun task => jsTrim task = "") then ["All tasks must have valid names"] else [])
  | .slotRestriction group minCommonSlots =>
      (if jsTrim group = "" then ["Slot restriction rule must have a group"] else []) ++
      (if minCommonSlots = 0 ∨ minCommonSlots < 1 then ["Minimum common slots must be at least 1"] else [])
  | .loadLimit group maxSlotsPerPhase =>
      (if jsTrim group = "" then ["Load limit rule must have a group"] else []) ++
      (if maxSlotsPerPhase = 0 ∨ maxSlotsPerPhase < 1 then ["Maximum slots per phase must be at least 1"] else [])
  | .phaseWindow task allowedPhases =>
      (if jsTrim task = "" then ["Phase window rule must have a task"] else []) ++
      (if allowedPhases.length = 0 then ["Phase window rule must have at least one allowed phase"] else []) ++
      (if allowedPhases.any (fun phase => phase < 1) then ["All phases must be positive numbers"] else [])
  | .patternMatch regex template _params =>
      (if jsTrim regex = "" then ["Pattern match rule must have a regex pattern"] else []) ++
      (if jsTrim template = "" then ["Pattern match rule must have a template"] else []) ++
      (if regexOk regex then [] else ["Invalid regex pattern"])
  | .precedenceOverride global specific priority =>
      (if global.length = 0 then ["Precedence override rule must have global rules"] else []) ++
      (if specific.length = 0 then ["Precedence override rule must have specific rules"] else []) ++
      (if priority = 0 ∨ priority < 1 then ["Priority must be at least 1"] else [])

/-- Result record of `validateRule`. -/
structure ValidationRes where
  isValid : Bool
  errors : List String
deriving DecidableEq, Repr

/-- The store's `validateRule`. -/
def validateRule (rule : Rule) : ValidationRes :=
  let errors := ruleErrors rule
  { isValid := errors.length = 0, errors := errors }

/-- The store's `addRule`: validate, throw `Invalid rule: ...` on failure,
append on success. -/
def addRule (rules : List Rule) (rule : Rule) : Except String (List Rule) :=
  let validation := validateRule rule
  if !validation.isValid then
    .error ("Invalid rule: " ++ String.intercalate ", " validation.errors)
  else
    .ok (rules ++ [rule])

/-- `rules.map((r, i) => i === index ? rule : r)` with the running callback
index starting at `k`; the stored `index` argument is a JS number, modelled
as `Int`. -/
def replaceFrom (index : Int) (rule : Rule) (k : Nat) : List Rule → List Rule
  | [] => []
  | r :: rest => (if (k : Int) = index then rule else r) :: replaceFrom index rule (k + 1) rest

/-- The store's `updateRule`: validate, throw on failure, otherwise map-replace
at `index` (an out-of-range index replaces nothing). -/
def updateRule (rules : List Rule) (index : Int) (rule : Rule) : Except String (List Rule) :=
  let validation := validateRule rule
  if !validation.isValid then
    .error ("Invalid rule: " ++ String.intercalate ", " validation.errors)
  else
    .ok (replaceFrom index rule 0 rules)

/-- `rules.filter((_, i) => i !== index)` with the running index starting at `k`. -/
def deleteFrom (index : Int) (k : Nat) : List Rule → List Rule
  | [] => []
  | r :: rest => (if (k : Int) = index then [] else [r]) ++ deleteFrom index (k + 1) rest

/-- The store's `deleteRule`: unconditional filter-out of position `index`. -/
def deleteRule (rules : List Rule) (index : Int) : List Rule :=
  deleteFrom index 0 rules

/-- The store's `clearRules`. -/
def clearRules : List Rule := []

/-- The store's `importRules`: count the incoming rules failing validation;
if any, throw without touching the store, else replace the whole sequence. -/
def importRules (_rules : List Rule) (incoming : List Rule) : Except String (List Rule) :=
  let invalidRules := incoming.filter (fun rule => !(validateRule rule).isValid)
  if invalidRules.length > 0 then
    .error ("Invalid rules found: " ++ toString invalidRules.length ++ " rules failed validation")
  else
    .ok incoming

/-- First-occurrence de-duplication, the order produced by `[...new Set(l)]`. -/
def firstDedup (l : List String) : List String :=
  l.foldl (fun acc x => if x ∈ acc then acc else acc ++ [x]) []

/-- Result record of `exportRules`; the metadata object is flattened into the
record (`generatedAt` is `new Date().toISOString()`, supplied here as the
external input `now`). -/
structure ExportResult where
  rules : List Rule
  generatedAt : String
  totalRules : Nat
  ruleTypes : List String
deriving DecidableEq, Repr

/-- The store's `exportRules`: pure read of the sequence plus metadata. -/
def exportRules (now : String) (rules : List Rule) : ExportResult :=
  { rules := rules
    generatedAt := now
    totalRules := rules.length
    ruleTypes := firstDedup (rules.map Rule.tag) }

/-- One repository mutation, as dispatched by the store's interface. -/
inductive Op where
  | addOp (r : Rule)
  | updateOp (i : Int) (r : Rule)
  | deleteOp (i : Int)
  | clearOp
  | importOp (rs : List Rule)

/-- The state after running one operation against the stored sequence; a thrown
validation error leaves the stored sequence unchanged (the `set` is never
reached). -/
def runOp (rules : List Rule) : Op → List Rule
  | .addOp r => match addRule rules r with | .ok next => next | .error _ => rules
  | .updateOp i r => match updateRule rules i r with | .ok next => next | .error _ => rules
  | .deleteOp i => deleteRule rules i
  | .clearOp => clearRules
  | .importOp rs => match importRules rules rs with | .ok next => next | .error _ => rules

/-- The stored sequences reachable from the store's initial state `rules: []`
through any series of repository operations. -/
inductive Reachable : List Rule → Prop
  | init : Reachable []
  | step {s : List Rule} (op : Op) : Reachable s → Reachable (runOp s op)

/-! ## Host-value model: rows, strings, numbers -/

/-- A data row `Record<string, any>`: an association list from column name to
string cell value; an absent key is an absent column. -/
def Row := List (String × String)

/-- `row[col]`: `none` models JS `undefined`. -/
def getCol (row : Row) (col : String) : Option String :=
  (List.find? (fun p => decide (p.1 = col)) row).map Prod.snd

/-- `col in row`. -/
def hasCol (row : Row) (col : String) : Bool :=
  List.any row (fun p => decide (p.1 = col))

/-- JS truthiness of a cell value: `undefined` and `""` are falsy, every other
string is truthy. -/
def truthy : Option String → Bool
  | none => false
  | some s => decide (s ≠ "")

/-- `String(v)` on a cell value. -/
def jsStr : Option String → String
  | none => "undefined"
  | some s => s

/-- `v || ''` on a cell value. -/
def orEmpty : Option String → String
  | none => ""
  | some s => s

/-- Split a character list at every delimiter, keeping empty segments (the
behavior of `String.prototype.split` with a single-character-class regex). -/
def splitChars (p : Char → Bool) : List Char → List (List Char)
  | [] => [[]]
  | c :: rest =>
      if p c then [] :: splitChars p rest
      else
        match splitChars p rest with
        | [] => [[c]]
        | h :: t => (c :: h) :: t

/-- `.split(/[,;]/)`. -/
def splitDelim (s : String) : List String :=
  (splitChars (fun c => c = ',' || c = ';') s.data).map String.mk

/-- Digit run to a natural number. -/
def digitsToNat (cs : List Char) : Nat :=
  cs.foldl (fun a c => a * 10 + (c.toNat - 48)) 0

/-- Unsigned decimal numeral, optionally with a `.`: the fragment of the host
`Number(...)` grammar the data exercises. -/
def parseDecCore (cs : List Char) : Option ℚ :=
  match cs.splitOn '.' with
  | [a] => if a ≠ [] ∧ a.all Char.isDigit then some (digitsToNat a : ℚ) else none
  | [a, b] =>
      if (a ≠ [] ∨ b ≠ []) ∧ a.all Char.isDigit ∧ b.all Char.isDigit then
        some ((digitsToNat a : ℚ) + (digitsToNat b : ℚ) / (10 ^ b.length : ℚ))
      else none
  | _ => none

/-- Signed decimal numeral. -/
def parseDec : List Char → Option ℚ
  | '-' :: rest => (parseDecCore rest).map (fun q => -q)
  | '+' :: rest => parseDecCore rest
  | cs => parseDecCore cs

/-- Models the host `Number(v)` conversion of a cell value on decimal numerals:
`none` is `NaN`; `Number(undefined)` is `NaN`; the empty (or all-blank) string
converts to `0`. -/
def jsNumber : Option String → Option ℚ
  | none => none
  | some s =>
      let t := jsTrim s
      if t = "" then some 0 else parseDec t.data

/-- `Number(s)` on a plain string. -/
def strNumber (s : String) : Option ℚ := jsNumber (some s)

/-- A JS number bound as used by `validateRange`: finite or `Infinity`. -/
inductive JNum where
  | fin (q : ℚ)
  | inf
deriving DecidableEq, Repr

/-- Template-literal rendering of a range bound (`1`, `5`, `Infinity`; only
integral bounds occur in `validateAll`). -/
def JNum.toStr : JNum → String
  | .inf => "Infinity"
  | .fin q => if q.den = 1 then toString q.num else toString q

/-- `v < bound` (false against `Infinity` never arises for `<`). -/
def qLtJ (v : ℚ) : JNum → Bool
  | .fin m => decide (v < m)
  | .inf => true

/-- `v > bound`; `v > Infinity` is false. -/
def qGtJ (v : ℚ) : JNum → Bool
  | .fin m => decide (v > m)
  | .inf => false

/-- `s.substring(a, b)` on a character list: JS swaps the ends when `a > b`
and clamps to the string length. -/
def jsSubstring (cs : List Char) (a b : Nat) : List Char :=
  ((cs.drop (Nat.min a b)).take (Nat.max a b - Nat.min a b))

/-- `lastIndexOf c` (only used under a membership guard). -/
def lastIdxOf (c : Char) (cs : List Char) : Nat :=
  cs.length - 1 - List.findIdx (fun x => decide (x = c)) cs.reverse

/-! ## Host-value model: `JSON.parse` success -/

/-- JSON insignificant whitespace. -/
def jsonWs (c : Char) : Bool :=
  c = ' ' || c = '\t' || c = '\n' || c = '\r'

/-- Drop leading JSON whitespace. -/
def skipWs (cs : List Char) : List Char := cs.dropWhile jsonWs

/-- Hexadecimal digit. -/
def jsonHex (c : Char) : Bool :=
  c.isDigit || ('a' ≤ c && c ≤ 'f') || ('A' ≤ c && c ≤ 'F')

/-- JSON string body after the opening quote; returns the rest on success. -/
def jStrRest : List Char → Option (List Char)
  | [] => none
  | '"' :: rest => some rest
  | '\\' :: rest =>
      match rest with
      | [] => none
      | e :: rest2 =>
          if e = '"' || e = '\\' || e = '/' || e = 'b' || e = 'f' || e = 'n' || e = 'r' || e = 't' then
            jStrRest rest2
          else if e = 'u' then
            match rest2 with
            | h1 :: h2 :: h3 :: h4 :: rest3 =>
                if jsonHex h1 && jsonHex h2 && jsonHex h3 && jsonHex h4 then jStrRest rest3 else none
            | _ => none
          else none
  | c :: rest => if c.toNat < 32 then none else jStrRest rest

/-- JSON number: integer part (`0` or nonzero-led digits). -/
def jNumInt : List Char → Option (List Char)
  | [] => none
  | '0' :: rest => some rest
  | c :: rest => if c.isDigit then some (rest.dropWhile Char.isDigit) else none

/-- JSON number: optional fraction part. -/
def jNumFrac : List Char → Option (List Char)
  | '.' :: rest =>
      if rest.takeWhile Char.isDigit = ([] : List Char) then none
      else some (rest.dropWhile Char.isDigit)
  | cs => some cs

/-- JSON number: optional exponent part. -/
def jNumExp : List Char → Option (List Char)
  | c :: rest =>
      if c = 'e' || c = 'E' then
        let rest2 := match rest with
          | s :: r => if s = '+' || s = '-' then r else rest
          | [] => rest
        if rest2.takeWhile Char.isDigit = ([] : List Char) then none
        else some (rest2.dropWhile Char.isDigit)
      else some (c :: rest)
  | [] => some []

/-- JSON number with optional leading minus. -/
def jNum (cs : List Char) : Option (List Char) :=
  let cs0 := match cs with | '-' :: r => r | _ => cs
  match jNumInt cs0 with
  | none => none
  | some r1 =>
      match jNumFrac r1 with
      | none => none
      | some r2 => jNumExp r2

mutual

/-- JSON value (fuelled; the fuel only bounds nesting). -/
def jVal : Nat → List Char → Option (List Char)
  | 0, _ => none
  | fuel + 1, cs =>
      match skipWs cs with
      | [] => none
      | '{' :: rest => jObj fuel (skipWs rest)
      | '[' :: rest => jArr fuel (skipWs rest)
      | '"' :: rest => jStrRest rest
      | 't' :: rest => if rest.take 3 = ['r', 'u', 'e'] then some (rest.drop 3) else none
      | 'f' :: rest => if rest.take 4 = ['a', 'l', 's', 'e'] then some (rest.drop 4) else none
      | 'n' :: rest => if rest.take 3 = ['u', 'l', 'l'] then some (rest.drop 3) else none
      | cs2 => jNum cs2

/-- JSON object body after `{` and whitespace. -/
def jObj : Nat → List Char → Option (List Char)
  | 0, _ => none
  | fuel + 1, cs =>
      match cs with
      | '}' :: rest => some rest
      | '"' :: rest =>
          match jStrRest rest with
          | none => none
          | some r1 =>
              match skipWs r1 with
              | ':' :: r2 =>
                  match jVal fuel r2 with
                  | none => none
                  | some r3 => jObjNext fuel (skipWs r3)
              | _ => none
      | _ => none

/-- JSON object continuation at `,` or `}`. -/
def jObjNext : Nat → List Char → Option (List Char)
  | 0, _ => none
  | fuel + 1, cs =>
      match cs with
      | '}' :: rest => some rest
      | ',' :: rest =>
          match skipWs rest with
          | '"' :: r1 =>
              match jStrRest r1 with
              | none => none
              | some r2 =>
                  match skipWs r2 with
                  | ':' :: r3 =>
                      match jVal fuel r3 with
                      | none => none
                      | some r4 => jObjNext fuel (skipWs r4)
                  | _ => none
          | _ => none
      | _ => none

/-- JSON array body after `[` and whitespace. -/
def jArr : Nat → List Char → Option (List Char)
  | 0, _ => none
  | fuel + 1, cs =>
      match cs with
      | ']' :: rest => some rest
      | _ =>
          match jVal fuel cs with
          | none => none
          | some r1 => jArrNext fuel (skipWs r1)

/-- JSON array continuation at `,` or `]`. -/
def jArrNext : Nat → List Char → Option (List Char)
  | 0, _ => none
  | fuel + 1, cs =>
      match cs with
      | ']' :: rest => some rest
      | ',' :: rest =>
          match jVal fuel rest with
          | none => none
          | some r1 => jArrNext fuel (skipWs r1)
      | _ => none

end

/-- Models `JSON.parse(s)` succeeding: a full JSON value consuming the whole
string (up to trailing whitespace). -/
def jsonParseOk (s : String) : Bool :=
  match jVal (s.length + 1) s.data with
  | some rest => decide (skipWs rest = [])
  | none => false

/-! ## Row validators (`validation.ts`) -/

/-- One reported finding, `{row, column, message, type}`. -/
structure ValidationError where
  row : Nat
  column : String
  message : String
  type : String
deriving DecidableEq, Repr

/-- `validateRequiredColumns`: schema-presence check against the FIRST row only. -/
def validateRequiredColumns (rows : List Row) (required : List String) : List ValidationError :=
  match rows with
  | [] => []
  | row0 :: _ =>
      (required.filter (fun col => !hasCol row0 col)).map
        (fun col => ⟨0, col, "Missing required column: " ++ col, "error"⟩)

/-- The forEach loop of `validateDuplicateIDs`, carrying the `seen` set and the
running row index. -/
def dupFrom (idCol : String) (seen : List (Option String)) (i : Nat) :
    List Row → List ValidationError
  | [] => []
  | row :: rest =>
      let id := getCol row idCol
      if id ∈ seen then
        ⟨i + 1, idCol, "Duplicate ID: " ++ jsStr id, "error"⟩ :: dupFrom idCol seen (i + 1) rest
      else
        dupFrom idCol (id :: seen) (i + 1) rest

/-- `validateDuplicateIDs`: first-seen wins, repeats flagged at their own row. -/
def validateDuplicateIDs (rows : List Row) (idCol : String) : List ValidationError :=
  dupFrom idCol [] 0 rows

/-- The forEach loop of `validateNumericList`. -/
def numericListFrom (col : String) (i : Nat) : List Row → List ValidationError
  | [] => []
  | row :: rest =>
      (if truthy (getCol row col) then
        let vals := (splitDelim (jsStr (getCol row col))).map jsTrim
        if vals.any (fun v => decide (v ≠ "") && (strNumber v).isNone) then
          [⟨i + 1, col, "Malformed numeric list in " ++ col, "error"⟩]
        else []
      else []) ++ numericListFrom col (i + 1) rest

/-- `validateNumericList`. -/
def validateNumericList (rows : List Row) (col : String) : List ValidationError :=
  numericListFrom col 0 rows

/-- The forEach loop of `validateRange`: `isNaN(val) || val < min || val > max`. -/
def rangeFrom (col : String) (lo hi : JNum) (i : Nat) : List Row → List ValidationError
  | [] => []
  | row :: rest =>
      (let flagged := match jsNumber (getCol row col) with
        | none => true
        | some val => qLtJ val lo || qGtJ val hi
      if flagged then
        [⟨i + 1, col, "Value out of range (" ++ lo.toStr ++ "-" ++ hi.toStr ++ ") in " ++ col,
          "error"⟩]
      else []) ++ rangeFrom col lo hi (i + 1) rest

/-- `validateRange`. -/
def validateRange (rows : List Row) (col : String) (lo hi : JNum) : List ValidationError :=
  rangeFrom col lo hi 0 rows

/-- The brace-trimming step of `validateJSON`: when the string holds both `{`
and `}`, keep `substring(indexOf('{'), lastIndexOf('}') + 1)`. -/
def braceTrim (s : String) : String :=
  let cs := s.data
  if '{' ∈ cs ∧ '}' ∈ cs then
    String.mk (jsSubstring cs (List.findIdx (fun x => decide (x = '{')) cs) (lastIdxOf '}' cs + 1))
  else s

/-- The per-row flag of `validateJSON`: the value is truthy and fails to parse
after brace-trimming. -/
def jsonBad (col : String) (row : Row) : Bool :=
  truthy (getCol row col) && !(jsonParseOk (braceTrim (jsStr (getCol row col))))

/-- The forEach loop of `validateJSON`. -/
def jsonFrom (col : String) (i : Nat) : List Row → List ValidationError
  | [] => []
  | row :: rest =>
      (if truthy (getCol row col) then
        if jsonParseOk (braceTrim (jsStr (getCol row col))) then []
        else [⟨i + 1, col, "Malformed JSON in " ++ col, "error"⟩]
      else []) ++ jsonFrom col (i + 1) rest

/-- `validateJSON`: skipped (returns `[]`) when `rows` is empty or the first
row lacks the column; otherwise parse every truthy value after brace-trimming. -/
def validateJSON (rows : List Row) (col : String) : List ValidationError :=
  match rows with
  | [] => []
  | row0 :: _ => if !hasCol row0 col then [] else jsonFrom col 0 rows

/-- The forEach loop of `validateReferences` (delimiter `/[,;]/`). -/
def refsFrom (col : String) (validIDs : List (Option String)) (i : Nat) :
    List Row → List ValidationError
  | [] => []
  | row :: rest =>
      (if truthy (getCol row col) then
        ((splitDelim (jsStr (getCol row col))).map jsTrim).filterMap
          (fun id =>
            if decide (id ≠ "") && !(decide ((some id) ∈ validIDs)) then
              some ⟨i + 1, col, "Unknown reference: " ++ id, "error"⟩
            else none)
      else []) ++ refsFrom col validIDs (i + 1) rest

/-- `validateReferences`: the `validIDs` set is the raw id-column values (JS set
membership of a string token never matches an `undefined` member). -/
def validateReferences (rows : List Row) (col : String) (validIDs : List (Option String)) :
    List ValidationError :=
  refsFrom col validIDs 0 rows

/-- The forEach loop of `validateGroupTags`: `!group || String(group).trim() === ''`. -/
def groupFrom (groupCol : String) (i : Nat) : List Row → List ValidationError
  | [] => []
  | row :: rest =>
      (let group := getCol row groupCol
      if !truthy group || decide (jsTrim (jsStr group) = "") then
        [⟨i + 1, groupCol, "Empty or invalid group tag", "error"⟩]
      else []) ++ groupFrom groupCol (i + 1) rest

/-- `validateGroupTags`. -/
def validateGroupTags (rows : List Row) (groupCol : String) : List ValidationError :=
  groupFrom groupCol 0 rows

/-- `validateCircularGroups`: the source is an explicit stub returning `[]`. -/
def validateCircularGroups (_rows : List Row) (_idCol _groupCol : String) :
    List ValidationError := []

/-- The non-empty `AvailableSlots` tokens of a worker row
(`String(row['AvailableSlots'] || '').split(/[,;]/).filter(Boolean)`). -/
def slotTokens (row : Row) : List String :=
  (splitDelim (orEmpty (getCol row "AvailableSlots"))).filter (fun v => decide (v ≠ ""))

/-- The per-row flag of `validateWorkerLoad`: `slots.length < maxLoad`, where a
`NaN` (non-numeric) `MaxLoadPerPhase` makes the comparison false. -/
def wlFlag (row : Row) : Bool :=
  match jsNumber (getCol row "MaxLoadPerPhase") with
  | none => false
  | some m => decide (((slotTokens row).length : ℚ) < m)

/-- The forEach loop of `validateWorkerLoad`. -/
def wlFrom (i : Nat) : List Row → List ValidationError
  | [] => []
  | row :: rest =>
      (if wlFlag row then
        [⟨i + 1, "AvailableSlots", "Worker overloaded: AvailableSlots < MaxLoadPerPhase",
          "error"⟩]
      else []) ++ wlFrom (i + 1) rest

/-- `validateWorkerLoad`. -/
def validateWorkerLoad (rows : List Row) : List ValidationError :=
  wlFrom 0 rows

/-- The union of all workers' trimmed skill tokens. -/
def allSkills (workers : List Row) : List String :=
  workers.foldl
    (fun acc w => acc ++ (splitDelim (orEmpty (getCol w "Skills"))).map jsTrim) []

/-- The forEach loop of `validateSkillCoverage` over the tasks. -/
def scFrom (skills : List String) (i : Nat) : List Row → List ValidationError
  | [] => []
  | task :: rest =>
      (((splitDelim (orEmpty (getCol task "RequiredSkills"))).map jsTrim).filterMap
        (fun skill =>
          if decide (skill ≠ "") && !(decide (skill ∈ skills)) then
            some ⟨i + 1, "RequiredSkills", "Skill not covered by any worker: " ++ skill, "error"⟩
          else none)) ++ scFrom skills (i + 1) rest

/-- `validateSkillCoverage`. -/
def validateSkillCoverage (tasks workers : List Row) : List ValidationError :=
  scFrom (allSkills workers) 0 tasks

/-! ## Dataset validation orchestrator (`validateAll`) -/

/-- One step of the summary reduce: `acc[e.type] = (acc[e.type] || 0) + 1`,
over an insertion-ordered record. -/
def bump (acc : List (String × Nat)) (t : String) : List (String × Nat) :=
  if acc.any (fun p => decide (p.1 = t)) then
    acc.map (fun p => if p.1 = t then (p.1, p.2 + 1) else p)
  else acc ++ [(t, 1)]

/-- The `summarize` reduce of `validateAll`. -/
def summarize (errs : List ValidationError) : List (String × Nat) :=
  errs.foldl (fun acc e => bump acc e.type) []

/-- `{errors, summary}` per dataset. -/
structure ValidationResult where
  errors : List ValidationError
  summary : List (String × Nat)
deriving DecidableEq, Repr

/-- The argument triple of `validateAll`. -/
structure Datasets where
  clients : List Row
  workers : List Row
  tasks : List Row

/-- The result triple of `validateAll`. -/
structure AllResults where
  clients : ValidationResult
  workers : ValidationResult
  tasks : ValidationResult
deriving DecidableEq, Repr

/-- The fixed clients pipeline of `validateAll`. -/
def clientErrors (d : Datasets) : List ValidationError :=
  validateRequiredColumns d.clients
    ["ClientID", "ClientName", "PriorityLevel", "RequestedTaskIDs", "GroupTag", "AttributesJSON"] ++
  validateDuplicateIDs d.clients "ClientID" ++
  validateRange d.clients "PriorityLevel" (.fin 1) (.fin 5) ++
  validateJSON d.clients "AttributesJSON" ++
  validateGroupTags d.clients "GroupTag" ++
  validateReferences d.clients "RequestedTaskIDs" (d.tasks.map (fun t => getCol t "TaskID"))

/-- The fixed workers pipeline of `validateAll`. -/
def workerErrors (d : Datasets) : List ValidationError :=
  validateRequiredColumns d.workers
    ["WorkerID", "WorkerName", "Skills", "AvailableSlots", "MaxLoadPerPhase", "WorkerGroup",
      "QualificationLevel"] ++
  validateDuplicateIDs d.workers "WorkerID" ++
  validateNumericList d.workers "AvailableSlots" ++
  validateWorkerLoad d.workers ++
  validateGroupTags d.workers "WorkerGroup"

/-- The fixed tasks pipeline of `validateAll`. -/
def taskErrors (d : Datasets) : List ValidationError :=
  validateRequiredColumns d.tasks
    ["TaskID", "TaskName", "Category", "Duration", "RequiredSkills", "PreferredPhases",
      "MaxConcurrent"] ++
  validateDuplicateIDs d.tasks "TaskID" ++
  validateRange d.tasks "Duration" (.fin 1) .inf ++
  validateSkillCoverage d.tasks d.workers

/-- `validateAll`: all-empty results unless all three datasets are non-empty,
otherwise the three fixed pipelines with per-type summaries. -/
def validateAll (d : Datasets) : AllResults :=
  if d.clients.length = 0 ∨ d.workers.length = 0 ∨ d.tasks.length = 0 then
    ⟨⟨[], []⟩, ⟨[], []⟩, ⟨[], []⟩⟩
  else
    ⟨⟨clientErrors d, summarize (clientErrors d)⟩,
     ⟨workerErrors d, summarize (workerErrors d)⟩,
     ⟨taskErrors d, summarize (taskErrors d)⟩⟩

/-! ## Helper lemmas: rule store -/

theorem validateRule_isValid_iff (r : Rule) :
    (validateRule r).isValid = true ↔ ruleErrors r = [] := by
  simp [validateRule, List.length_eq_zero]

theorem addRule_eq (s : List Rule) (r : Rule) :
    addRule s r =
      if (validateRule r).isValid then .ok (s ++ [r])
      else .error ("Invalid rule: " ++ String.intercalate ", " (validateRule r).errors) := by
  by_cases h : (validateRule r).isValid <;> simp [addRule, h]

theorem updateRule_eq (s : List Rule) (i : Int) (r : Rule) :
    updateRule s i r =
      if (validateRule r).isValid then .ok (replaceFrom i r 0 s)
      else .error ("Invalid rule: " ++ String.intercalate ", " (validateRule r).errors) := by
  by_cases h : (validateRule r).isValid <;> simp [updateRule, h]

theorem importRules_ok (s rs : List Rule) (h : ∀ r ∈ rs, (validateRule r).isValid = true) :
    importRules s rs = .ok rs := by
  have hf : rs.filter (fun r => !(validateRule r).isValid) = [] := by
    rw [List.filter_eq_nil_iff]
    intro a ha
    simp [h a ha]
  simp [importRules, hf]

theorem importRules_error (s rs : List Rule) (h : ∃ r ∈ rs, (validateRule r).isValid = false) :
    0 < (rs.filter (fun r => !(validateRule r).isValid)).length ∧
    importRules s rs =
      .error ("Invalid rules found: " ++
        toString (rs.filter (fun r => !(validateRule r).isValid)).length ++
        " rules failed validation") := by
  obtain ⟨r, hr, hv⟩ := h
  have hmem : r ∈ rs.filter (fun r => !(validateRule r).isValid) :=
    List.mem_filter.mpr ⟨hr, by simp [hv]⟩
  have hl : 0 < (rs.filter (fun r => !(validateRule r).isValid)).length := by
    rw [List.length_pos]
    intro hnil
    rw [hnil] at hmem
    simp at hmem
  refine ⟨hl, ?_⟩
  simp only [importRules]
  rw [if_pos hl]

theorem replaceFrom_out (i : Int) (r : Rule) :
    ∀ (l : List Rule) (k : Nat), (i < (k : Int) ∨ (k : Int) + l.length ≤ i) →
      replaceFrom i r k l = l := by
  intro l
  induction l with
  | nil => intro k _; rfl
  | cons x xs ih =>
      intro k h
      have hlen : ((x :: xs).length : Int) = (xs.length : Int) + 1 := by
        simp [List.length_cons]
      have hne : ¬((k : Int) = i) := by omega
      have hrest : i < ((k + 1 : Nat) : Int) ∨ ((k + 1 : Nat) : Int) + xs.length ≤ i := by
        push_cast
        omega
      simp only [replaceFrom, if_neg hne]
      rw [ih (k + 1) hrest]

theorem replaceFrom_mem (i : Int) (r : Rule) :
    ∀ (l : List Rule) (k : Nat) (x : Rule), x ∈ replaceFrom i r k l → x = r ∨ x ∈ l := by
  intro l
  induction l with
  | nil => intro k x hx; simp [replaceFrom] at hx
  | cons y ys ih =>
      intro k x hx
      simp only [replaceFrom, List.mem_cons] at hx
      rcases hx with hx | hx
      · by_cases hk : (k : Int) = i
        · rw [if_pos hk] at hx; exact Or.inl hx
        · rw [if_neg hk] at hx; exact Or.inr (by simp [hx])
      · rcases ih (k + 1) x hx with h | h
        · exact Or.inl h
        · exact Or.inr (List.mem_cons_of_mem _ h)

theorem deleteFrom_mem (i : Int) :
    ∀ (l : List Rule) (k : Nat) (x : Rule), x ∈ deleteFrom i k l → x ∈ l := by
  intro l
  induction l with
  | nil => intro k x hx; simp [deleteFrom] at hx
  | cons y ys ih =>
      intro k x hx
      simp only [deleteFrom, List.mem_append] at hx
      rcases hx with hx | hx
      · by_cases hk : (k : Int) = i
        · rw [if_pos hk] at hx; simp at hx
        · rw [if_neg hk] at hx
          simp at hx
          simp [hx]
      · exact List.mem_cons_of_mem _ (ih (k + 1) x hx)

theorem runOp_import_eq (s rs : List Rule) :
    runOp s (.importOp rs) =
      if 0 < (rs.filter (fun r => !(validateRule r).isValid)).length then s else rs := by
  by_cases h : 0 < (rs.filter (fun r => !(validateRule r).isValid)).length
  · simp only [runOp, importRules]
    rw [if_pos h, if_pos h]
  · simp only [runOp, importRules]
    rw [if_neg h, if_neg h]

/-! ## Claim theorems: rule store -/

/-- C1: starting from the empty rule sequence, every sequence reachable through
any series of the repository operations `add`, `update`, `delete`, `clear` and
`importRules` contains only rules accepted by `validateRule`; no operation can
make an invalid rule a member of the stored sequence. -/
theorem reachable_rules_all_valid {s : List Rule} (h : Reachable s) :
    ∀ r ∈ s, (validateRule r).isValid = true := by
  induction h with
  | init => intro r hr; simp at hr
  | @step s' op _ ih =>
      cases op with
      | addOp r0 =>
          by_cases hv : (validateRule r0).isValid
          · intro r hr
            simp only [runOp, addRule_eq, if_pos hv] at hr
            rcases List.mem_append.mp hr with h | h
            · exact ih r h
            · simp at h; rw [h]; exact hv
          · intro r hr
            simp only [runOp, addRule_eq, if_neg hv] at hr
            exact ih r hr
      | updateOp i r0 =>
          by_cases hv : (validateRule r0).isValid
          · intro r hr
            simp only [runOp, updateRule_eq, if_pos hv] at hr
            rcases replaceFrom_mem i r0 s' 0 r hr with h | h
            · rw [h]; exact hv
            · exact ih r h
          · intro r hr
            simp only [runOp, updateRule_eq, if_neg hv] at hr
            exact ih r hr
      | deleteOp i =>
          intro r hr
          simp only [runOp, deleteRule] at hr
          exact ih r (deleteFrom_mem i s' 0 r hr)
      | clearOp =>
          intro r hr
          simp [runOp, clearRules] at hr
      | importOp rs =>
          intro r hr
          rw [runOp_import_eq] at hr
          by_cases hp : 0 < (rs.filter (fun r => !(validateRule r).isValid)).length
          · rw [if_pos hp] at hr
            exact ih r hr
          · rw [if_neg hp] at hr
            have hf : rs.filter (fun r => !(validateRule r).isValid) = [] :=
              List.length_eq_zero.mp (Nat.eq_zero_of_not_pos hp)
            have := (List.filter_eq_nil_iff.mp hf) r hr
            simpa using this

/-- Witness for C1 at the concrete reachable state `[coRun ["T1", "T2"]]`. -/
theorem reachable_rules_all_valid_witness :
    (validateRule (Rule.coRun ["T1", "T2"])).isValid = true := by
  have h0 : Reachable (runOp [] (.addOp (.coRun ["T1", "T2"]))) :=
    Reachable.step _ Reachable.init
  have he : runOp [] (.addOp (.coRun ["T1", "T2"])) = [Rule.coRun ["T1", "T2"]] := by decide
  exact reachable_rules_all_valid (he ▸ h0) _ (by simp)

/-- C2: if some incoming rule fails validation, `importRules` throws an error
stating how many rules failed and the stored sequence is unchanged; if every
incoming rule is valid, the import succeeds. -/
theorem importRules_atomic (s rs : List Rule) :
    ((∃ r ∈ rs, (validateRule r).isValid = false) →
      0 < (rs.filter (fun r => !(validateRule r).isValid)).length ∧
      importRules s rs =
        .error ("Invalid rules found: " ++
          toString (rs.filter (fun r => !(validateRule r).isValid)).length ++
          " rules failed validation") ∧
      runOp s (.importOp rs) = s) ∧
    ((∀ r ∈ rs, (validateRule r).isValid = true) → importRules s rs = .ok rs) := by
  constructor
  · intro h
    obtain ⟨hl, he⟩ := importRules_error s rs h
    exact ⟨hl, he, by rw [runOp_import_eq, if_pos hl]⟩
  · intro h
    exact importRules_ok s rs h

/-- Witness for C2 at a concrete invalid import. -/
theorem importRules_atomic_witness :
    importRules [Rule.coRun ["A", "B"]] [Rule.coRun ["T1"]] =
      .error "Invalid rules found: 1 rules failed validation" ∧
    runOp [Rule.coRun ["A", "B"]] (.importOp [Rule.coRun ["T1"]]) = [Rule.coRun ["A", "B"]] := by
  have h := (importRules_atomic [Rule.coRun ["A", "B"]] [Rule.coRun ["T1"]]).1
    ⟨Rule.coRun ["T1"], by simp, by decide⟩
  refine ⟨?_, h.2.2⟩
  have he := h.2.1
  have hc : (List.filter (fun r => !(validateRule r).isValid) [Rule.coRun ["T1"]]).length = 1 := by
    decide
  rw [hc] at he
  exact he

/-- C4: `add` throws exactly when the rule is invalid, with a message listing
every violated invariant of the variant, and appends on success; in particular
a one-task `coRun` fails citing "at least 2 tasks" and a `patternMatch` with
the pattern `"(unclosed"` fails citing an invalid regex. -/
theorem addRule_raises_iff (s : List Rule) (r : Rule) :
    ((validateRule r).isValid = false →
      addRule s r = .error ("Invalid rule: " ++ String.intercalate ", " (validateRule r).errors)) ∧
    ((validateRule r).isValid = true →
      addRule s r = .ok (s ++ [r]) ∧ (s ++ [r]).length = s.length + 1) ∧
    addRule s (.coRun ["T1"]) =
      .error "Invalid rule: Co-run rule must have at least 2 tasks" ∧
    addRule s (.patternMatch "(unclosed" "t" []) = .error "Invalid rule: Invalid regex pattern" := by
  refine ⟨?_, ?_, ?_, ?_⟩
  · intro hv
    rw [addRule_eq, if_neg (by simp [hv])]
  · intro hv
    rw [addRule_eq, if_pos hv]
    simp
  · rw [addRule_eq, if_neg (by decide)]
    have : validateRule (.coRun ["T1"]) =
        ⟨false, ["Co-run rule must have at least 2 tasks"]⟩ := by decide
    rw [this]
    rfl
  · rw [addRule_eq, if_neg (by decide)]
    have : validateRule (.patternMatch "(unclosed" "t" []) =
        ⟨false, ["Invalid regex pattern"]⟩ := by decide
    rw [this]
    rfl

/-- Witness for C4 at a concrete valid and a concrete invalid rule. -/
theorem addRule_raises_iff_witness :
    addRule [] (.coRun ["T1", "T2"]) = .ok [Rule.coRun ["T1", "T2"]] ∧
    addRule [] (.coRun ["T1"]) = .error "Invalid rule: Co-run rule must have at least 2 tasks" := by
  have h := addRule_raises_iff [] (.coRun ["T1", "T2"])
  exact ⟨by simpa using (h.2.1 (by decide)).1, h.2.2.1⟩

/-- C7: exporting and re-importing into a cleared repository reproduces the
stored sequence exactly, whenever the stored rules are all valid. -/
theorem export_import_round_trip (now : String) (s : List Rule)
    (h : ∀ r ∈ s, (validateRule r).isValid = true) :
    (exportRules now s).rules = s ∧
    importRules clearRules (exportRules now s).rules = .ok s := by
  exact ⟨rfl, importRules_ok clearRules s h⟩

/-- Witness for C7 at a concrete two-rule repository. -/
theorem export_import_round_trip_witness :
    importRules clearRules
      (exportRules "2024-01-01T00:00:00.000Z" [Rule.coRun ["T1", "T2"], Rule.loadLimit "G" 3]).rules =
      .ok [Rule.coRun ["T1", "T2"], Rule.loadLimit "G" 3] :=
  (export_import_round_trip "2024-01-01T00:00:00.000Z"
    [Rule.coRun ["T1", "T2"], Rule.loadLimit "G" 3] (by decide)).2

/-- C9 (implicit): a fully valid import replaces the stored sequence with
exactly the incoming list, whatever was stored before. -/
theorem importRules_replaces (s rs : List Rule)
    (h : ∀ r ∈ rs, (validateRule r).isValid = true) :
    importRules s rs = .ok rs ∧ runOp s (.importOp rs) = rs := by
  have hf : rs.filter (fun r => !(validateRule r).isValid) = [] := by
    rw [List.filter_eq_nil_iff]
    intro a ha
    simp [h a ha]
  refine ⟨importRules_ok s rs h, ?_⟩
  rw [runOp_import_eq, if_neg (by simp [hf])]

/-- Witness for C9: importing over a non-empty store discards its contents. -/
theorem importRules_replaces_witness :
    importRules [Rule.coRun ["A", "B"]] [Rule.loadLimit "G" 3] = .ok [Rule.loadLimit "G" 3] ∧
    runOp [Rule.coRun ["A", "B"]] (.importOp [Rule.loadLimit "G" 3]) = [Rule.loadLimit "G" 3] :=
  importRules_replaces [Rule.coRun ["A", "B"]] [Rule.loadLimit "G" 3] (by decide)

/-- C10 (implicit): for a valid rule, `updateRule` never throws; at an index
outside `[0, length)` the map replaces nothing and the sequence is returned
unchanged. -/
theorem updateRule_out_of_range (s : List Rule) (r : Rule) (i : Int)
    (hv : (validateRule r).isValid = true) :
    updateRule s i r = .ok (replaceFrom i r 0 s) ∧
    ((i < 0 ∨ (s.length : Int) ≤ i) → updateRule s i r = .ok s) := by
  constructor
  · rw [updateRule_eq, if_pos hv]
  · intro hi
    rw [updateRule_eq, if_pos hv, replaceFrom_out]
    rcases hi with h | h
    · left; exact_mod_cast h
    · right; simpa using h

/-- Witness for C10 at a concrete out-of-range index. -/
theorem updateRule_out_of_range_witness :
    updateRule [Rule.coRun ["A", "B"]] 5 (.coRun ["T1", "T2"]) = .ok [Rule.coRun ["A", "B"]] :=
  (updateRule_out_of_range [Rule.coRun ["A", "B"]] (.coRun ["T1", "T2"]) 5 (by decide)).2
    (by right; simp)

/-! ## Claim theorems: orchestrator -/

/-- C3: if any of the three datasets is empty, `validateAll` returns all-empty
results for all three; when all three are non-empty it returns exactly the
three fixed validator pipelines with their summaries. -/
theorem validateAll_gate (d : Datasets) :
    ((d.clients = [] ∨ d.workers = [] ∨ d.tasks = []) →
      validateAll d = ⟨⟨[], []⟩, ⟨[], []⟩, ⟨[], []⟩⟩) ∧
    (d.clients ≠ [] → d.workers ≠ [] → d.tasks ≠ [] →
      validateAll d =
        ⟨⟨clientErrors d, summarize (clientErrors d)⟩,
         ⟨workerErrors d, summarize (workerErrors d)⟩,
         ⟨taskErrors d, summarize (taskErrors d)⟩⟩) := by
  constructor
  · intro h
    have hc : d.clients.length = 0 ∨ d.workers.length = 0 ∨ d.tasks.length = 0 := by
      rcases h with h | h | h <;> simp [h]
    rw [validateAll, if_pos hc]
  · intro h1 h2 h3
    have hc : ¬(d.clients.length = 0 ∨ d.workers.length = 0 ∨ d.tasks.length = 0) := by
      simp [List.length_eq_zero, h1, h2, h3]
    rw [validateAll, if_neg hc]

/-- Witness for C3 at a concrete triple with an empty workers dataset. -/
theorem validateAll_gate_witness :
    validateAll ⟨[[("ClientID", "C1")]], [], [[("TaskID", "T1")]]⟩ =
      ⟨⟨[], []⟩, ⟨[], []⟩, ⟨[], []⟩⟩ :=
  (validateAll_gate ⟨[[("ClientID", "C1")]], [], [[("TaskID", "T1")]]⟩).1 (Or.inr (Or.inl rfl))

/-- C8: `validateAll` is deterministic — its result is a function of the three
row lists alone, so two calls on the same unchanged triple return identical
results (error entries in the same order and the same summary counts). -/
theorem validateAll_deterministic (d₁ d₂ : Datasets)
    (hc : d₁.clients = d₂.clients) (hw : d₁.workers = d₂.workers) (ht : d₁.tasks = d₂.tasks) :
    validateAll d₁ = validateAll d₂ := by
  cases d₁
  cases d₂
  simp only at hc hw ht
  subst hc
  subst hw
  subst ht
  rfl

/-- Witness for C8 at a concrete dataset triple. -/
theorem validateAll_deterministic_witness :
    validateAll ⟨[[("ClientID", "C1")]], [[("WorkerID", "W1")]], [[("TaskID", "T1")]]⟩ =
      validateAll ⟨[[("ClientID", "C1")]], [[("WorkerID", "W1")]], [[("TaskID", "T1")]]⟩ :=
  validateAll_deterministic _ _ rfl rfl rfl

/-! ## Helper lemmas: per-row error characterizations -/

theorem jsonFrom_cons (col : String) (k : Nat) (row : Row) (rest : List Row) :
    jsonFrom col k (row :: rest) =
      (if jsonBad col row then [⟨k + 1, col, "Malformed JSON in " ++ col, "error"⟩] else []) ++
        jsonFrom col (k + 1) rest := by
  by_cases h1 : truthy (getCol row col)
  · by_cases h2 : jsonParseOk (braceTrim (jsStr (getCol row col)))
    · simp [jsonFrom, h1, h2, jsonBad]
    · simp [jsonFrom, h1, h2, jsonBad]
  · simp [jsonFrom, h1, jsonBad]

theorem jsonFrom_mem (col : String) :
    ∀ (l : List Row) (k : Nat) (e : ValidationError),
      e ∈ jsonFrom col k l ↔
        ∃ j row, l.get? j = some row ∧ jsonBad col row = true ∧
          e = ⟨k + j + 1, col, "Malformed JSON in " ++ col, "error"⟩ := by
  intro l
  induction l with
  | nil => intro k e; simp [jsonFrom]
  | cons row rest ih =>
      intro k e
      rw [jsonFrom_cons]
      constructor
      · intro he
        rcases List.mem_append.mp he with h | h
        · by_cases hb : jsonBad col row
          · rw [if_pos hb] at h
            simp at h
            exact ⟨0, row, by simp, hb, by simpa using h⟩
          · rw [if_neg hb] at h
            simp at h
        · obtain ⟨j, row', hj, hbad, herr⟩ := (ih (k + 1) e).mp h
          refine ⟨j + 1, row', by simpa using hj, hbad, ?_⟩
          rw [herr]
          simp only [ValidationError.mk.injEq, and_true]
          omega
      · rintro ⟨j, row', hj, hbad, herr⟩
        cases j with
        | zero =>
            simp at hj
            subst hj
            apply List.mem_append.mpr
            left
            rw [if_pos hbad]
            simp [herr]
        | succ j' =>
            apply List.mem_append.mpr
            right
            apply (ih (k + 1) e).mpr
            refine ⟨j', row', by simpa using hj, hbad, ?_⟩
            rw [herr]
            simp only [ValidationError.mk.injEq, and_true]
            omega

theorem wlFrom_mem :
    ∀ (l : List Row) (k : Nat) (e : ValidationError),
      e ∈ wlFrom k l ↔
        ∃ j row, l.get? j = some row ∧ wlFlag row = true ∧
          e = ⟨k + j + 1, "AvailableSlots",
                "Worker overloaded: AvailableSlots < MaxLoadPerPhase", "error"⟩ := by
  intro l
  induction l with
  | nil => intro k e; simp [wlFrom]
  | cons row rest ih =>
      intro k e
      show e ∈ (if wlFlag row then _ else []) ++ wlFrom (k + 1) rest ↔ _
      constructor
      · intro he
        rcases List.mem_append.mp he with h | h
        · by_cases hb : wlFlag row
          · rw [if_pos hb] at h
            simp at h
            exact ⟨0, row, by simp, hb, by simpa using h⟩
          · rw [if_neg hb] at h
            simp at h
        · obtain ⟨j, row', hj, hflag, herr⟩ := (ih (k + 1) e).mp h
          refine ⟨j + 1, row', by simpa using hj, hflag, ?_⟩
          rw [herr]
          simp only [ValidationError.mk.injEq, and_true]
          omega
      · rintro ⟨j, row', hj, hflag, herr⟩
        cases j with
        | zero =>
            simp at hj
            subst hj
            apply List.mem_append.mpr
            left
            rw [if_pos hflag]
            simp [herr]
        | succ j' =>
            apply List.mem_append.mpr
            right
            apply (ih (k + 1) e).mpr
            refine ⟨j', row', by simpa using hj, hflag, ?_⟩
            rw [herr]
            simp only [ValidationError.mk.injEq, and_true]
            omega

/-! ## Claim theorems: validateJSON (C5) and validateWorkerLoad (C6) -/

/-- C5 counterexample: the claim says `validateJSON` returns no errors exactly
when NO row has the column, and that a later row holding unparseable JSON is
flagged even when the first row lacks the column.  In the code the skip check
inspects `rows[0]` only: here the second row has the column with a truthy,
unparseable value, yet the result is empty. -/
theorem validateJSON_counterexample :
    validateJSON ([[("Other", "x")], [("AttributesJSON", "notjson")]] : List Row)
        "AttributesJSON" = [] ∧
    List.any ([[("Other", "x")], [("AttributesJSON", "notjson")]] : List Row)
        (fun row => hasCol row "AttributesJSON") = true ∧
    truthy (getCol ([("AttributesJSON", "notjson")] : Row) "AttributesJSON") = true ∧
    jsonParseOk (braceTrim (jsStr (getCol ([("AttributesJSON", "notjson")] : Row)
        "AttributesJSON"))) = false := by
  decide

/-- C5 amended: `validateJSON` returns no errors whenever `rows` is empty or
the FIRST row lacks the column (the skip check inspects only `rows[0]`);
otherwise one error is emitted at the 1-based index of every row whose value is
truthy and fails to parse as JSON after brace-trimming. -/
theorem validateJSON_amended (rows : List Row) (col : String) :
    (rows = [] → validateJSON rows col = []) ∧
    (∀ row0 rest, rows = row0 :: rest → hasCol row0 col = false →
      validateJSON rows col = []) ∧
    (∀ row0 rest, rows = row0 :: rest → hasCol row0 col = true →
      ∀ e, e ∈ validateJSON rows col ↔
        ∃ j row, rows.get? j = some row ∧
          truthy (getCol row col) = true ∧
          jsonParseOk (braceTrim (jsStr (getCol row col))) = false ∧
          e = ⟨j + 1, col, "Malformed JSON in " ++ col, "error"⟩) := by
  refine ⟨?_, ?_, ?_⟩
  · intro h
    rw [h]
    rfl
  · intro row0 rest h hcol
    rw [h]
    simp [validateJSON, hcol]
  · intro row0 rest h hcol e
    have hrun : validateJSON rows col = jsonFrom col 0 rows := by
      rw [h]
      simp [validateJSON, hcol]
    rw [hrun, jsonFrom_mem]
    constructor
    · rintro ⟨j, row, hj, hbad, herr⟩
      rw [jsonBad, Bool.and_eq_true, Bool.not_eq_true'] at hbad
      refine ⟨j, row, hj, hbad.1, hbad.2, ?_⟩
      rw [herr]
      simp only [ValidationError.mk.injEq, and_true]
      omega
    · rintro ⟨j, row, hj, htru, hns, herr⟩
      refine ⟨j, row, hj, ?_, ?_⟩
      · rw [jsonBad, Bool.and_eq_true, Bool.not_eq_true']
        exact ⟨htru, hns⟩
      · rw [herr]
        simp only [ValidationError.mk.injEq, and_true]
        omega

/-- Witness for C5 (amended) at a concrete one-row dataset whose value fails
to parse. -/
theorem validateJSON_amended_witness :
    (⟨1, "AttributesJSON", "Malformed JSON in AttributesJSON", "error"⟩ : ValidationError) ∈
      validateJSON ([[("AttributesJSON", "notjson")]] : List Row) "AttributesJSON" := by
  have h := (validateJSON_amended ([[("AttributesJSON", "notjson")]] : List Row)
    "AttributesJSON").2.2 [("AttributesJSON", "notjson")] [] rfl (by decide)
  exact (h _).mpr ⟨0, [("AttributesJSON", "notjson")], rfl, by decide, by decide, rfl⟩

/-- C6: a worker row whose `MaxLoadPerPhase` does not convert to a number is
never flagged by `validateWorkerLoad` (the `count < NaN` comparison is false);
a row with a numeric `MaxLoadPerPhase` is flagged exactly when the count of its
non-empty `AvailableSlots` tokens is strictly below that number. -/
theorem validateWorkerLoad_nan_passthrough (rows : List Row) (i : Nat) (row : Row)
    (hrow : rows.get? i = some row) :
    (jsNumber (getCol row "MaxLoadPerPhase") = none →
      ∀ e ∈ validateWorkerLoad rows, e.row ≠ i + 1) ∧
    (∀ q, jsNumber (getCol row "MaxLoadPerPhase") = some q →
      ((∃ e ∈ validateWorkerLoad rows, e.row = i + 1) ↔
        ((slotTokens row).length : ℚ) < q)) := by
  constructor
  · intro hnan e he hre
    obtain ⟨j, row', hj, hflag, herr⟩ := (wlFrom_mem rows 0 e).mp he
    have hrj : e.row = j + 1 := by
      rw [herr]
      simp
    have hij : j = i := by omega
    subst hij
    rw [hrow] at hj
    have hrr : row' = row := by
      injection hj with hj
      exact hj.symm
    subst hrr
    rw [wlFlag, hnan] at hflag
    simp at hflag
  · intro q hq
    constructor
    · rintro ⟨e, he, hre⟩
      obtain ⟨j, row', hj, hflag, herr⟩ := (wlFrom_mem rows 0 e).mp he
      have hrj : e.row = j + 1 := by
        rw [herr]
        simp
      have hij : j = i := by omega
      subst hij
      rw [hrow] at hj
      have hrr : row' = row := by
        injection hj with hj
        exact hj.symm
      subst hrr
      rw [wlFlag, hq] at hflag
      exact of_decide_eq_true hflag
    · intro hlt
      refine ⟨⟨i + 1, "AvailableSlots",
        "Worker overloaded: AvailableSlots < MaxLoadPerPhase", "error"⟩, ?_, rfl⟩
      apply (wlFrom_mem rows 0 _).mpr
      refine ⟨i, row, hrow, ?_, ?_⟩
      · rw [wlFlag, hq]
        exact decide_eq_true hlt
      · simp only [ValidationError.mk.injEq, and_true]
        omega

/-- Witness for C6 at a concrete overloaded worker row (two slot tokens,
numeric `MaxLoadPerPhase` of three). -/
theorem validateWorkerLoad_nan_passthrough_witness :
    ∃ e ∈ validateWorkerLoad
      ([[("AvailableSlots", "1,2"), ("MaxLoadPerPhase", "3")]] : List Row), e.row = 1 := by
  have h := (validateWorkerLoad_nan_passthrough
    ([[("AvailableSlots", "1,2"), ("MaxLoadPerPhase", "3")]] : List Row) 0
    [("AvailableSlots", "1,2"), ("MaxLoadPerPhase", "3")] rfl).2 3 (by decide)
  exact h.mpr (by decide)

end Digitalyz
